import Mathlib

/-!
Shallow embedding of `src/code/train_deploy_xgboost_with_dependencies.py`.

The script defines three pieces:
  * `model_fn(model_dir)` (lines 16-22): deserialize the model from
    `os.path.join(model_dir, "xgboost-model")` with `pickle.load`.
  * `parse_args()` (lines 25-48): an `argparse` parser with five optional long
    flags (`--max_depth` int default 5, `--eta` float default 0.2,
    `--objective` str default "reg:squarederror", `--train` str default
    `os.environ.get("SM_CHANNEL_TRAIN")`, `--model_dir` str default
    `os.environ.get("SM_MODEL_DIR")`), finished with `parse_known_args()`.
  * `train()` (lines 51-76): reads `args.K` (no such argument is ever
    declared, the TODO at lines 37-40 is unfilled), builds an empty
    `hyperparameters` dict, reads `f"...train.csv"`, prints the undefined
    name `k_fold_avg`, and would pickle `model` to
    `args.model_dir + "/xgboost-model"`.

Modelling choices:
  * The filesystem is a map from paths to blobs.  The operating system
    collapses repeated separators, so keys are stored with runs of '/'
    collapsed (`collapseSlashes`); relative and absolute paths stay distinct.
  * A pickled blob stores the model value itself, so `pickle.dump` followed
    by `pickle.load` is value-preserving, as for real pickle; any other file
    content makes `pickle.load` fail (`unpicklingError`).
  * Python floats are modelled as exact rationals read from the decimal
    literal; no claim performs float arithmetic.
  * `int(s)` / `float(s)` are modelled for plain decimal literals (optional
    sign, digits, single dot); surrounding whitespace, underscores and
    exponents are not modelled.
  * The `argparse` model covers this parser's configuration: long options
    taking exactly one value, given as two tokens or as a single
    `--name=value` token, unknown options and unmatched positionals collected
    into the second component of `parse_known_args`, a value token that
    itself looks like an option making the flag fail with a usage error, and
    negative-number tokens allowed as values.  Prefix abbreviation of option
    names and the bare `--` separator are not modelled; no claim depends on
    them.
  * Errors that terminate the Python process are values of `PyErr`.
-/

set_option autoImplicit false

namespace XgbScript

abbrev Tok := List Char

/-- An opaque fitted model: all that matters to the claims is its behaviour
(predictions) and that pickling round-trips it. -/
structure Model where
  predict : Int → Int

/-- Content of a file: either raw text or a pickled model object. -/
inductive Blob where
  | text (s : String)
  | pickled (m : Model)

/-- Unhandled Python faults that terminate the process. -/
inductive PyErr where
  | attributeError (attr : String)
  | nameError (nm : String)
  | fileNotFoundError (path : String)
  | unpicklingError
  | parserError
  | usageError (msg : String)
deriving DecidableEq

/-- Collapse runs of '/' to a single '/', as the operating system does when
resolving a path.  Relative and absolute paths remain distinct. -/
def collapseSlashes : Tok → Tok
  | [] => []
  | [c] => [c]
  | a :: b :: rest =>
    if a = '/' ∧ b = '/' then collapseSlashes (b :: rest)
    else a :: collapseSlashes (b :: rest)

/-- The filesystem: a map from (collapsed) paths to file contents. -/
def FS := Tok → Option Blob

def emptyFS : FS := fun _ => none

def fsRead (fs : FS) (p : String) : Option Blob :=
  fs (collapseSlashes p.toList)

def fsWrite (fs : FS) (p : String) (b : Blob) : FS :=
  fun q => if q = collapseSlashes p.toList then some b else fs q

/-- `posixpath.join a b` for a single relative-or-absolute second component,
modelling `os.path.join` on a POSIX system (the SageMaker container). -/
def joinChars (a b : Tok) : Tok :=
  if b.head? = some '/' then b
  else if a = [] ∨ a.getLast? = some '/' then a ++ b
  else a ++ '/' :: b

def posixJoin (a b : String) : String :=
  String.mk (joinChars a.toList b.toList)

/-- Path the Model Loader reads from: `os.path.join(model_dir, "xgboost-model")`
(lines 20-21). -/
def model_fn_path (model_dir : String) : String :=
  posixJoin model_dir ("xgboost-model")

/-- Path the Driver writes to: `model_location = args.model_dir + "/xgboost-model"`
(line 73). -/
def model_location (model_dir : String) : String :=
  model_dir ++ ("/xgboost-model")

/-- `pickle.load` on a file's content. -/
def unpickle : Blob → Except PyErr Model
  | .pickled m => .ok m
  | .text _ => .error .unpicklingError

/-- Lines 16-22: `model_fn` opens `os.path.join(model_dir, "xgboost-model")`
and unpickles it; a missing file raises `FileNotFoundError` from `open`. -/
def model_fn (fs : FS) (model_dir : String) : Except PyErr Model :=
  match fsRead fs (model_fn_path model_dir) with
  | none => .error (.fileNotFoundError (model_fn_path model_dir))
  | some b => unpickle b

/-- Lines 73-74 of the Driver in isolation:
`pickle.dump(model, open(model_location, "wb"))`. -/
def dump_model (model_dir : String) (m : Model) (fs : FS) : FS :=
  fsWrite fs (model_location model_dir) (.pickled m)

/-- A Python value that can sit in an argparse namespace attribute. -/
inductive PyVal where
  | int (i : Int)
  | float (q : Rat)
  | str (s : String)
  | pyNone
deriving DecidableEq

/-- Python `str()` of a namespace value, as interpolated by an f-string.
`str(None)` is the four-character string `None`. -/
def pyStr : PyVal → String
  | .int i => toString i
  | .float q => toString q
  | .str s => s
  | .pyNone => "None"

/-- An argparse `Namespace`: attribute name to value.  `getattr` on a missing
attribute raises `AttributeError`. -/
def Namespace := List (String × PyVal)

def getattr (ns : Namespace) (attr : String) : Option PyVal :=
  (ns.find? (fun p => p.1 = attr)).map (fun p => p.2)

/-- The resolved arguments: one field per `add_argument` call (lines 34-46). -/
structure Args where
  max_depth : Int
  eta : Rat
  objective : String
  train : Option String
  model_dir : Option String
deriving DecidableEq

/-- The argparse namespace built from the resolved arguments: exactly the five
declared destinations become attributes, nothing else (in particular no `K`). -/
def toNamespace (a : Args) : Namespace :=
  [ (("max_depth"), PyVal.int a.max_depth)
  , (("eta"), PyVal.float a.eta)
  , (("objective"), PyVal.str a.objective)
  , (("train"), match a.train with | some s => PyVal.str s | none => PyVal.pyNone)
  , (("model_dir"), match a.model_dir with | some s => PyVal.str s | none => PyVal.pyNone) ]

/-- The f-string of line 65, `f"...train.csv"` built from `args.train`. -/
def trainCsvPath (train : Option String) : String :=
  pyStr (match train with | some s => PyVal.str s | none => PyVal.pyNone) ++ ("/train.csv")

/-- `pd.read_csv(path, header=None, index_col=None)`: a missing file raises
`FileNotFoundError`; binary (pickled) content fails in the parser; text
content is returned as the (otherwise unused) data frame. -/
def readCsv (fs : FS) (p : String) : Except PyErr String
  := match fsRead fs p with
  | none => .error (.fileNotFoundError p)
  | some (.text s) => .ok s
  | some (.pickled _) => .error .parserError

/-- Lines 51-76: `train()`.  Statement order is that of the source:
`K = args.K` (line 56) raises `AttributeError` whenever the namespace lacks
`K`; the empty `hyperparameters` dict (lines 58-63) is side-effect free;
`pd.read_csv` (line 65) runs next; the `print` at line 71 references the
undefined name `k_fold_avg` (the TODO at lines 67-70 is unfilled), so
lines 73-75 are unreachable.  The result pairs the fault (if any) with the
filesystem as left by the call. -/
def train (ns : Namespace) (fs : FS) : Option PyErr × FS :=
  match getattr ns ("K") with
  | none => (some (.attributeError ("K")), fs)
  | some _K =>
    match getattr ns ("train") with
    | none => (some (.attributeError ("train")), fs)
    | some tr =>
      match readCsv fs (pyStr tr ++ ("/train.csv")) with
      | .error e => (some e, fs)
      | .ok _train_df => (some (.nameError ("k_fold_avg")), fs)

/-! ### The argument parser (lines 25-48) -/

/-- Split a list at the first occurrence of `c`; the second component is
`none` when `c` does not occur. -/
def splitFirst (c : Char) : Tok → Tok × Option Tok
  | [] => ([], none)
  | x :: rest =>
    if x = c then ([], some rest)
    else
      let p := splitFirst c rest
      (x :: p.1, p.2)

def digitsToNat (l : Tok) : Nat :=
  l.foldl (fun n ch => 10 * n + (ch.toNat - 48)) 0

/-- Python `int(s)` restricted to plain decimal literals: optional sign
followed by at least one digit. -/
def parseNatChars (l : Tok) : Option Nat :=
  if l ≠ [] ∧ l.all Char.isDigit then some (digitsToNat l) else none

def parseIntChars (l : Tok) : Option Int :=
  match l with
  | '-' :: rest => (parseNatChars rest).map (fun n => -(n : Int))
  | '+' :: rest => (parseNatChars rest).map (fun n => (n : Int))
  | _ => (parseNatChars l).map (fun n => (n : Int))

def parseInt (s : String) : Option Int := parseIntChars s.toList

/-- Python `float(s)` restricted to plain decimal literals, as an exact
rational: digits with an optional single dot; `5.` and `.5` are accepted,
`.` alone is not. -/
def parseFloatBody (l : Tok) : Option Rat :=
  match splitFirst '.' l with
  | (ip, none) =>
    if ip ≠ [] ∧ ip.all Char.isDigit then some ((digitsToNat ip : Rat)) else none
  | (ip, some fp) =>
    if (ip ≠ [] ∨ fp ≠ []) ∧ ip.all Char.isDigit ∧ fp.all Char.isDigit
    then some ((digitsToNat ip : Rat) + (digitsToNat fp : Rat) / (10 : Rat) ^ fp.length)
    else none

def parseFloatChars (l : Tok) : Option Rat :=
  match l with
  | '-' :: rest => (parseFloatBody rest).map (fun q => -q)
  | '+' :: rest => parseFloatBody rest
  | _ => parseFloatBody l

def parseFloat (s : String) : Option Rat := parseFloatChars s.toList

/-- argparse's negative-number matcher (regex `-\d+` or `-\d*\.\d+`); since no
option string of this parser looks like a negative number, such tokens are
treated as values/positionals, not options. -/
def negNumTok (t : Tok) : Bool :=
  match t with
  | '-' :: rest =>
    (decide (rest ≠ []) && rest.all Char.isDigit) ||
    (match splitFirst '.' rest with
     | (ip, some fp) => ip.all Char.isDigit && decide (fp ≠ []) && fp.all Char.isDigit
     | (_, none) => false)
  | _ => false

def headDash (t : Tok) : Bool := decide (t.head? = some '-')

/-- argparse's classification of a token as option-like (an `O` in its
pattern): starts with the prefix char, is not the lone `-`, is not a
negative number (allowed here), and contains no space. -/
def optionLike (t : Tok) : Bool :=
  headDash t && !(t == ['-']) && !negNumTok t && !(t.contains ' ')

def knownName (nm : Tok) : Bool :=
  decide (nm = ("max_depth").toList) || decide (nm = ("eta").toList) ||
  decide (nm = ("objective").toList) || decide (nm = ("train").toList) ||
  decide (nm = ("model_dir").toList)

def knownStr (n : String) : Bool :=
  decide (n = ("max_depth")) || decide (n = ("eta")) ||
  decide (n = ("objective")) || decide (n = ("train")) ||
  decide (n = ("model_dir"))

/-- Scan state: the last typed value seen for each declared option, plus the
unrecognized tokens that `parse_known_args` returns as its second result. -/
structure Acc where
  max_depth : Option Int
  eta : Option Rat
  objective : Option String
  train : Option String
  model_dir : Option String
  extras : List Tok
deriving DecidableEq

def acc0 : Acc := ⟨none, none, none, none, none, []⟩

def pushExtra (acc : Acc) (t : Tok) : Acc :=
  { acc with extras := acc.extras ++ [t] }

/-- Store one value for a known option, applying the option's `type` coercion;
a coercion failure is the usage error argparse exits with. -/
def setOpt (acc : Acc) (nm : Tok) (v : Tok) : Except PyErr Acc :=
  if nm = ("max_depth").toList then
    match parseIntChars v with
    | some i => .ok { acc with max_depth := some i }
    | none => .error (.usageError ("argument max_depth: invalid int value"))
  else if nm = ("eta").toList then
    match parseFloatChars v with
    | some q => .ok { acc with eta := some q }
    | none => .error (.usageError ("argument eta: invalid float value"))
  else if nm = ("objective").toList then .ok { acc with objective := some (String.mk v) }
  else if nm = ("train").toList then .ok { acc with train := some (String.mk v) }
  else if nm = ("model_dir").toList then .ok { acc with model_dir := some (String.mk v) }
  else .error (.usageError ("unknown option"))

/-- The token scan of `parse_known_args` for this parser.  A `--name=value`
token is split at the first `=`; a known `--name` consumes the next token as
its value unless that token is option-like, in which case argparse fails with
`expected one argument`.  Unknown options consume nothing; they, and any
unmatched positional, are collected in order into `extras` (the second result
of `parse_known_args`). -/
def scan : List Tok → Acc → Except PyErr Acc
  | [], acc => .ok acc
  | ('-' :: '-' :: nm0) :: rest, acc =>
    (match splitFirst '=' nm0 with
     | (nm, some v) =>
       if knownName nm then
         match setOpt acc nm v with
         | .ok acc2 => scan rest acc2
         | .error e => .error e
       else scan rest (pushExtra acc ('-' :: '-' :: nm0))
     | (nm, none) =>
       if knownName nm then
         match rest with
         | [] => .error (.usageError (String.mk nm ++ (": expected one argument")))
         | v :: rest2 =>
           if optionLike v then
             .error (.usageError (String.mk nm ++ (": expected one argument")))
           else
             match setOpt acc nm v with
             | .ok acc2 => scan rest2 acc2
             | .error e => .error e
       else scan rest (pushExtra acc ('-' :: '-' :: nm0)))
  | t :: rest, acc => scan rest (pushExtra acc t)

/-- The two environment variables read as argument defaults (lines 43, 46). -/
structure Env where
  smChannelTrain : Option String
  smModelDir : Option String
deriving DecidableEq

/-- Apply the declared defaults to whatever the scan collected: literal
defaults for the three hyperparameters, `os.environ.get` results for the two
directories (so an unset variable leaves `None`). -/
def finalize (acc : Acc) (env : Env) : Args × List String :=
  ( { max_depth := acc.max_depth.getD 5
    , eta := acc.eta.getD (0.2 : Rat)
    , objective := acc.objective.getD ("reg:squarederror")
    , train := match acc.train with | some v => some v | none => env.smChannelTrain
    , model_dir := match acc.model_dir with | some v => some v | none => env.smModelDir }
  , acc.extras.map String.mk )

/-- Lines 25-48: `parse_args()`, returning the `(namespace, extras)` pair of
`parser.parse_known_args()` with the namespace as the typed `Args` record. -/
def parse_args (argv : List String) (env : Env) : Except PyErr (Args × List String) :=
  (scan (argv.map String.toList) acc0).map (fun acc => finalize acc env)

/-- Lines 78-81: the entry point runs `parse_args` and then `train` on the
resulting namespace; a parse failure exits before anything else runs. -/
def main (argv : List String) (env : Env) (fs : FS) : Option PyErr × FS :=
  match parse_args argv env with
  | .error e => (some e, fs)
  | .ok (a, _extras) => train (toNamespace a) fs

/-! ### Spec-side descriptions of well-formed invocations and their resolution -/

/-- One flag/value pair of a CLI invocation. -/
structure Seg where
  name : String
  value : String
deriving DecidableEq

/-- Render flag/value pairs as the argv the SageMaker API passes to the
container: `--name value --name value ...`. -/
def render (segs : List Seg) : List String :=
  segs.flatMap (fun s => ["--" ++ s.name, s.value])

/-- Structural well-formedness of one pair: a nonempty flag name without `=`,
and a value that does not begin with the option prefix char. -/
def wfSeg (s : Seg) : Prop :=
  s.name ≠ "" ∧ '=' ∉ s.name.toList ∧ s.value.toList.head? ≠ some '-'

instance (s : Seg) : Decidable (wfSeg s) := by
  unfold wfSeg; infer_instance

/-- Type well-formedness of one pair: values for the typed flags pass their
coercion. -/
def wfTyped (s : Seg) : Prop :=
  (s.name = ("max_depth") → (parseInt s.value).isSome = true) ∧
  (s.name = ("eta") → (parseFloat s.value).isSome = true)

instance (s : Seg) : Decidable (wfTyped s) := by
  unfold wfTyped; infer_instance

/-- Value attached to the last occurrence of flag `n`, if any (argparse is
last-occurrence-wins). -/
def lastVal (n : String) (segs : List Seg) : Option String :=
  segs.foldl (fun r s => if s.name = n then some s.value else r) none

/-- Spec-side effect of one pair on the scan state: a known flag stores its
(coerced) value, an unknown one contributes its two tokens to `extras`. -/
def applySeg (acc : Acc) (s : Seg) : Acc :=
  if s.name = ("max_depth") then { acc with max_depth := parseInt s.value }
  else if s.name = ("eta") then { acc with eta := parseFloat s.value }
  else if s.name = ("objective") then { acc with objective := some s.value }
  else if s.name = ("train") then { acc with train := some s.value }
  else if s.name = ("model_dir") then { acc with model_dir := some s.value }
  else { acc with extras := acc.extras ++ ['-' :: '-' :: s.name.toList, s.value.toList] }

/-- The tokens one pair contributes to the discarded extras. -/
def extrasOf (s : Seg) : List Tok :=
  if knownStr s.name then [] else ['-' :: '-' :: s.name.toList, s.value.toList]

/-- Resolution rule as the spec states it: for each flag, the value given on
the command line when present (last occurrence, with the declared type
coercion), else the named environment variable for `--train`/`--model_dir`,
else the literal default. -/
def resolve (segs : List Seg) (env : Env) : Args :=
  { max_depth := match lastVal ("max_depth") segs with
      | some v => (parseInt v).getD 5
      | none => 5
  , eta := match lastVal ("eta") segs with
      | some v => (parseFloat v).getD (0.2 : Rat)
      | none => (0.2 : Rat)
  , objective := match lastVal ("objective") segs with
      | some v => v
      | none => ("reg:squarederror")
  , train := match lastVal ("train") segs with
      | some v => some v
      | none => env.smChannelTrain
  , model_dir := match lastVal ("model_dir") segs with
      | some v => some v
      | none => env.smModelDir }

/-- A value failing the type coercion of `--max_depth` or `--eta`. -/
def badTyped (s : Seg) : Prop :=
  (s.name = ("max_depth") ∧ parseInt s.value = none) ∨
  (s.name = ("eta") ∧ parseFloat s.value = none)

instance (s : Seg) : Decidable (badTyped s) := by
  unfold badTyped; infer_instance

/-! ### Path lemmas -/

theorem collapseSlashes_dup (xs ys : Tok) :
    collapseSlashes (xs ++ '/' :: '/' :: ys) = collapseSlashes (xs ++ '/' :: ys) := by
  induction xs with
  | nil => simp [collapseSlashes]
  | cons x xs ih =>
    cases xs with
    | nil =>
      by_cases hx : x = '/'
      · subst hx; simp [collapseSlashes]
      · simp [collapseSlashes, hx]
    | cons y ys2 =>
      simp only [List.cons_append] at ih ⊢
      by_cases hxy : x = '/' ∧ y = '/'
      · simp only [collapseSlashes, if_pos hxy]
        exact ih
      · simp only [collapseSlashes, if_neg hxy]
        rw [ih]

theorem joinChars_of_plain (a b : Tok) (hb : b.head? ≠ some '/')
    (ha : a ≠ []) (hl : a.getLast? ≠ some '/') :
    joinChars a b = a ++ '/' :: b := by
  unfold joinChars
  rw [if_neg hb, if_neg (by simp [ha, hl])]

theorem collapse_join (a b : Tok) (ha : a ≠ []) (hb : b.head? ≠ some '/') :
    collapseSlashes (joinChars a b) = collapseSlashes (a ++ '/' :: b) := by
  unfold joinChars
  rw [if_neg hb]
  by_cases hl : a.getLast? = some '/'
  · rw [if_pos (Or.inr hl)]
    have hlast : a.getLast ha = '/' := by
      have := List.getLast?_eq_getLast a ha
      rw [hl] at this
      exact (Option.some_injective _ this.symm)
    have hsplit : a = a.dropLast ++ ['/'] := by
      conv_lhs => rw [← List.dropLast_append_getLast ha]
      rw [hlast]
    rw [hsplit]
    simp only [List.append_assoc, List.singleton_append]
    exact (collapseSlashes_dup a.dropLast b).symm
  · rw [if_neg (by simp [ha, hl])]

theorem path_key_eq (d : String) (hd : d.toList ≠ []) :
    collapseSlashes (model_fn_path d).toList
      = collapseSlashes (model_location d).toList := by
  have h1 : (model_fn_path d).toList = joinChars d.toList (("xgboost-model").toList) := rfl
  have h2 : (model_location d).toList = d.toList ++ '/' :: ("xgboost-model").toList := by
    show (d ++ ("/xgboost-model")).data = _
    rw [String.data_append]
    rfl
  rw [h1, h2]
  exact collapse_join d.toList _ hd (by decide)

/-! ### Claim theorems about the artifact path and the model loader -/

/-- C1 (counterexample): at the model directory path `""`, the Driver's write
path is the absolute `/xgboost-model` while the Model Loader's read path is
the relative `xgboost-model`, so reader and writer do not use the same
path string for every directory. -/
theorem pathAgreementFailsAtEmpty :
    model_fn_path ("") = ("xgboost-model") ∧
    model_location ("") = ("/xgboost-model") ∧
    model_fn_path ("") ≠ model_location ("") := by
  refine ⟨by decide, rfl, by decide⟩

/-- C1 (amended): for every model directory path that is nonempty and does not
end with a path separator (in particular the SageMaker default
`/opt/ml/model`), the Driver's write path `d + "/xgboost-model"` (line 73) and
the Model Loader's read path `os.path.join(d, "xgboost-model")` (lines 20-21)
are exactly the same string, so writer and reader filenames agree. -/
theorem pathAgreement (d : String) (hne : d.toList ≠ [])
    (hsl : d.toList.getLast? ≠ some '/') :
    model_fn_path d = model_location d := by
  apply String.ext
  show joinChars d.toList (("xgboost-model").toList) = (d ++ ("/xgboost-model")).data
  rw [String.data_append, joinChars_of_plain d.toList _ (by decide) hne hsl]
  rfl

/-- Witness for the amended C1 at the SageMaker default model directory. -/
theorem pathAgreement_witness :
    model_fn_path ("/opt/ml/model") = model_location ("/opt/ml/model") :=
  pathAgreement ("/opt/ml/model") (by decide) (by decide)

/-- C3 (counterexample): serializing a model with the Driver's serialization
step at model directory `""` and then loading via `model_fn("")` does not
return the model: the writer stores at the absolute path `/xgboost-model`
while the loader opens the relative path `xgboost-model` and fails. -/
theorem roundTripFailsAtEmptyDir :
    model_fn (dump_model ("") ⟨fun i => i⟩ emptyFS) ("")
      = .error (.fileNotFoundError ("xgboost-model")) := rfl

/-- C3 (amended): for every model object, every filesystem and every nonempty
model directory path, writing with the Driver's serialization step
(`pickle.dump` to `model_dir + "/xgboost-model"`, lines 73-74) and reading
back with `model_fn` (lines 16-22) returns exactly the original model object,
with no transformation applied — hence the same predictions on any input. -/
theorem pickleRoundTrip (m : Model) (d : String) (fs : FS) (hd : d.toList ≠ []) :
    model_fn (dump_model d m fs) d = .ok m := by
  have hkey := path_key_eq d hd
  simp only [model_fn, dump_model, fsRead, fsWrite, hkey, if_pos]
  rfl

/-- Witness for the amended C3 at the SageMaker default model directory. -/
theorem pickleRoundTrip_witness :
    model_fn (dump_model ("/opt/ml/model") ⟨fun i => i + 1⟩ emptyFS) ("/opt/ml/model")
      = .ok ⟨fun i => i + 1⟩ :=
  pickleRoundTrip ⟨fun i => i + 1⟩ ("/opt/ml/model") emptyFS (by decide)

/-- C7: `model_fn` fails closed: a directory without the file named
`xgboost-model` raises `FileNotFoundError` from `open`, and a file whose
content is not a pickled model raises an unpickling error; no partial or
garbage object is ever returned. -/
theorem modelFnFailsClosed (fs : FS) (d : String) :
    (fsRead fs (model_fn_path d) = none →
      model_fn fs d = .error (.fileNotFoundError (model_fn_path d))) ∧
    (∀ s, fsRead fs (model_fn_path d) = some (.text s) →
      model_fn fs d = .error .unpicklingError) := by
  constructor
  · intro h; simp [model_fn, h]
  · intro s h; simp [model_fn, h, unpickle]

/-- Witness for C7: loading from an empty filesystem fails with
`FileNotFoundError`, and loading a text (non-pickle) file fails with an
unpickling error. -/
theorem modelFnFailsClosed_witness :
    model_fn emptyFS ("/m") = .error (.fileNotFoundError (model_fn_path ("/m"))) ∧
    model_fn (fsWrite emptyFS ("/m/xgboost-model") (.text ("junk"))) ("/m")
      = .error .unpicklingError :=
  ⟨(modelFnFailsClosed emptyFS ("/m")).1 rfl,
   (modelFnFailsClosed (fsWrite emptyFS ("/m/xgboost-model") (.text ("junk"))) ("/m")).2
     ("junk") rfl⟩

/-! ### Claim theorems about `train` -/

/-- C5: the namespace produced by `parse_args` has no attribute `K` (the TODO
at lines 37-40 is unfilled), so for every resolved argument set and every
filesystem, `train()` raises `AttributeError` at the statement `K = args.K`
(line 56) and returns with the filesystem untouched: the read-train-serialize
sequence is unreachable. -/
theorem trainRaisesAttributeErrorK (a : Args) (fs : FS) :
    getattr (toNamespace a) ("K") = none ∧
    train (toNamespace a) fs = (some (.attributeError ("K")), fs) :=
  ⟨rfl, rfl⟩

/-- C4: on every invocation whose resolved training file is missing, `train()`
raises an unhandled fault and performs no write at all: the filesystem (in
particular the model directory) is returned unchanged.  It holds because the
fault at `K = args.K` (line 56) precedes both the `read_csv` call and the
serialization step. -/
theorem trainNoWriteOnMissingInput (a : Args) (fs : FS)
    (hmiss : fsRead fs (trainCsvPath a.train) = none) :
    (train (toNamespace a) fs).1.isSome = true ∧ (train (toNamespace a) fs).2 = fs :=
  ⟨rfl, rfl⟩

/-- Witness for C4 at the default arguments over an empty filesystem. -/
theorem trainNoWriteOnMissingInput_witness :
    fsRead emptyFS (trainCsvPath none) = none ∧
    ((train (toNamespace ⟨5, (0.2 : Rat), ("reg:squarederror"), none, none⟩) emptyFS).1.isSome
        = true ∧
      (train (toNamespace ⟨5, (0.2 : Rat), ("reg:squarederror"), none, none⟩) emptyFS).2
        = emptyFS) :=
  ⟨rfl, trainNoWriteOnMissingInput ⟨5, (0.2 : Rat), ("reg:squarederror"), none, none⟩
    emptyFS rfl⟩

/-- C6 (code bug): a fully well-formed run — default flags, both environment
variables set, a readable training file present — still faults at
`K = args.K` and never writes `<model_dir>/xgboost-model`; no invocation of
`train()` completes without error, so the claimed frame of a successful run is
unrealizable in the code as it stands. -/
theorem trainNeverSucceeds :
    parse_args [] ⟨some ("/data"), some ("/model")⟩
      = .ok (⟨5, (0.2 : Rat), ("reg:squarederror"), some ("/data"), some ("/model")⟩, []) ∧
    train (toNamespace ⟨5, (0.2 : Rat), ("reg:squarederror"), some ("/data"), some ("/model")⟩)
        (fsWrite emptyFS ("/data/train.csv") (.text ("0,1")))
      = (some (.attributeError ("K")), fsWrite emptyFS ("/data/train.csv") (.text ("0,1"))) ∧
    fsRead (fsWrite emptyFS ("/data/train.csv") (.text ("0,1"))) (model_location ("/model"))
      = none :=
  ⟨rfl, rfl, rfl⟩

/-! ### Lemmas about the argument scan -/

theorem mk_toList (s : String) : String.mk s.toList = s := rfl

theorem splitFirst_not_mem (c : Char) (l : Tok) (h : c ∉ l) :
    splitFirst c l = (l, none) := by
  induction l with
  | nil => rfl
  | cons x rest ih =>
    have hx : x ≠ c := fun hxc => h (hxc ▸ List.mem_cons_self x rest)
    have hrest : c ∉ rest := fun hm => h (List.mem_cons_of_mem x hm)
    simp [splitFirst, hx, ih hrest]

theorem optionLike_nondash (t : Tok) (h : t.head? ≠ some '-') :
    optionLike t = false := by
  simp [optionLike, headDash, decide_eq_false h]

theorem knownName_toList (n : String) : knownName n.toList = knownStr n := by
  have h : ∀ s : String, decide (n.toList = s.toList) = decide (n = s) := by
    intro s
    rw [decide_eq_decide]
    exact ⟨fun hh => String.ext hh, fun hh => by rw [hh]⟩
  simp only [knownName, knownStr, h]

theorem scan_cons_nondash (t : Tok) (h : t.head? ≠ some '-') (rest : List Tok) (acc : Acc) :
    scan (t :: rest) acc = scan rest (pushExtra acc t) := by
  cases t with
  | nil => rfl
  | cons c t' =>
    have hc : c ≠ '-' := by simpa using h
    rw [scan.eq_def]
    split
    · rename_i heq; cases heq
    · rename_i nm0 rest2 acc2 heq
      injection heq with h1 _
      injection h1 with hch _
      exact absurd hch hc
    · rename_i heq
      injection heq with h1 h2
      rw [h1, h2]

theorem setOpt_eq_applySeg (acc : Acc) (s : Seg) (hk : knownStr s.name = true)
    (ht : wfTyped s) :
    setOpt acc s.name.toList s.value.toList = .ok (applySeg acc s) := by
  have hk' := hk
  simp only [knownStr, Bool.or_eq_true, decide_eq_true_eq] at hk'
  rcases hk' with ((((h | h) | h) | h) | h)
  · obtain ⟨i, hi⟩ := Option.isSome_iff_exists.mp (ht.1 h)
    have hi' : parseIntChars s.value.data = some i := hi
    simp [setOpt, applySeg, h, parseInt, hi']
  · obtain ⟨q, hq⟩ := Option.isSome_iff_exists.mp (ht.2 h)
    have hq' : parseFloatChars s.value.data = some q := hq
    simp +decide [setOpt, applySeg, h, parseFloat, hq']
  · simp +decide [setOpt, applySeg, h, mk_toList]
  · simp +decide [setOpt, applySeg, h, mk_toList]
  · simp +decide [setOpt, applySeg, h, mk_toList]

theorem applySeg_unknown (acc : Acc) (s : Seg) (hk : knownStr s.name = false) :
    applySeg acc s
      = { acc with extras := acc.extras ++ ['-' :: '-' :: s.name.toList, s.value.toList] } := by
  have hk' := hk
  simp only [knownStr, Bool.or_eq_false_iff, decide_eq_false_iff_not] at hk'
  obtain ⟨⟨⟨⟨h1, h2⟩, h3⟩, h4⟩, h5⟩ := hk'
  simp [applySeg, h1, h2, h3, h4, h5]

theorem render_toks (s : Seg) (segs : List Seg) :
    (render (s :: segs)).map String.toList
      = ('-' :: '-' :: s.name.toList) :: s.value.toList :: (render segs).map String.toList := by
  have h1 : ("--" ++ s.name).toList = '-' :: '-' :: s.name.toList := by
    show ("--" ++ s.name).data = _
    rw [String.data_append]
    rfl
  simp [render, h1]

theorem scan_render (segs : List Seg) (hwf : ∀ s ∈ segs, wfSeg s)
    (hty : ∀ s ∈ segs, wfTyped s) (ts : List Tok) (acc : Acc) :
    scan ((render segs).map String.toList ++ ts) acc
      = scan ts (segs.foldl applySeg acc) := by
  induction segs generalizing acc with
  | nil => simp [render]
  | cons s segs ih =>
    obtain ⟨hne, heq, hval⟩ := hwf s (List.mem_cons_self s segs)
    have hwf' : ∀ x ∈ segs, wfSeg x := fun x hx => hwf x (List.mem_cons_of_mem s hx)
    have hty' : ∀ x ∈ segs, wfTyped x := fun x hx => hty x (List.mem_cons_of_mem s hx)
    rw [render_toks]
    simp only [List.cons_append, List.foldl_cons]
    rw [scan]
    rw [splitFirst_not_mem '=' s.name.toList heq]
    simp only []
    rw [knownName_toList]
    cases hkn : knownStr s.name with
    | true =>
      simp only [if_pos rfl]
      rw [optionLike_nondash s.value.toList hval]
      simp only [Bool.false_eq_true, if_neg, ite_false]
      rw [setOpt_eq_applySeg acc s hkn (hty s (List.mem_cons_self s segs))]
      exact ih hwf' hty' (applySeg acc s)
    | false =>
      simp only [Bool.false_eq_true, if_neg, ite_false]
      rw [scan_cons_nondash s.value.toList hval]
      rw [ih hwf' hty' (pushExtra (pushExtra acc ('-' :: '-' :: s.name.toList)) s.value.toList)]
      rw [applySeg_unknown acc s hkn]
      simp [pushExtra]

theorem lastVal_foldl_init (n : String) (segs : List Seg) (r : Option String) :
    segs.foldl (fun o s => if s.name = n then some s.value else o) r
      = match lastVal n segs with
        | some v => some v
        | none => r := by
  induction segs generalizing r with
  | nil => simp [lastVal]
  | cons s segs ih =>
    rw [List.foldl_cons, ih]
    have hl : lastVal n (s :: segs)
        = match lastVal n segs with
          | some v => some v
          | none => if s.name = n then some s.value else none := by
      unfold lastVal
      rw [List.foldl_cons, ih]
      rfl
    rw [hl]
    cases lastVal n segs with
    | some v => rfl
    | none =>
      by_cases hn : s.name = n <;> simp [hn]

theorem lastVal_cons (n : String) (s : Seg) (segs : List Seg) :
    lastVal n (s :: segs)
      = match lastVal n segs with
        | some v => some v
        | none => if s.name = n then some s.value else none := by
  unfold lastVal
  rw [List.foldl_cons, lastVal_foldl_init]
  rfl

theorem applySeg_max_depth_ne (acc : Acc) (s : Seg) (h : s.name ≠ ("max_depth")) :
    (applySeg acc s).max_depth = acc.max_depth := by
  unfold applySeg
  split_ifs <;> simp_all

theorem applySeg_eta_ne (acc : Acc) (s : Seg) (h : s.name ≠ ("eta")) :
    (applySeg acc s).eta = acc.eta := by
  unfold applySeg
  split_ifs <;> simp_all

theorem applySeg_objective_ne (acc : Acc) (s : Seg) (h : s.name ≠ ("objective")) :
    (applySeg acc s).objective = acc.objective := by
  unfold applySeg
  split_ifs <;> simp_all

theorem applySeg_train_ne (acc : Acc) (s : Seg) (h : s.name ≠ ("train")) :
    (applySeg acc s).train = acc.train := by
  unfold applySeg
  split_ifs <;> simp_all

theorem applySeg_model_dir_ne (acc : Acc) (s : Seg) (h : s.name ≠ ("model_dir")) :
    (applySeg acc s).model_dir = acc.model_dir := by
  unfold applySeg
  split_ifs <;> simp_all

theorem foldl_applySeg_max_depth (segs : List Seg) (acc : Acc) :
    (segs.foldl applySeg acc).max_depth
      = match lastVal ("max_depth") segs with
        | some v => parseInt v
        | none => acc.max_depth := by
  induction segs generalizing acc with
  | nil => simp [lastVal]
  | cons s segs ih =>
    rw [List.foldl_cons, ih, lastVal_cons]
    cases lastVal ("max_depth") segs with
    | some v => rfl
    | none =>
      by_cases hn : s.name = ("max_depth")
      · simp [applySeg, hn]
      · simp [applySeg_max_depth_ne acc s hn, hn]

theorem foldl_applySeg_eta (segs : List Seg) (acc : Acc) :
    (segs.foldl applySeg acc).eta
      = match lastVal ("eta") segs with
        | some v => parseFloat v
        | none => acc.eta := by
  induction segs generalizing acc with
  | nil => simp [lastVal]
  | cons s segs ih =>
    rw [List.foldl_cons, ih, lastVal_cons]
    cases lastVal ("eta") segs with
    | some v => rfl
    | none =>
      by_cases hn : s.name = ("eta")
      · simp +decide [applySeg, hn]
      · simp [applySeg_eta_ne acc s hn, hn]

theorem foldl_applySeg_objective (segs : List Seg) (acc : Acc) :
    (segs.foldl applySeg acc).objective
      = match lastVal ("objective") segs with
        | some v => some v
        | none => acc.objective := by
  induction segs generalizing acc with
  | nil => simp [lastVal]
  | cons s segs ih =>
    rw [List.foldl_cons, ih, lastVal_cons]
    cases lastVal ("objective") segs with
    | some v => rfl
    | none =>
      by_cases hn : s.name = ("objective")
      · simp +decide [applySeg, hn]
      · simp [applySeg_objective_ne acc s hn, hn]

theorem foldl_applySeg_train (segs : List Seg) (acc : Acc) :
    (segs.foldl applySeg acc).train
      = match lastVal ("train") segs with
        | some v => some v
        | none => acc.train := by
  induction segs generalizing acc with
  | nil => simp [lastVal]
  | cons s segs ih =>
    rw [List.foldl_cons, ih, lastVal_cons]
    cases lastVal ("train") segs with
    | some v => rfl
    | none =>
      by_cases hn : s.name = ("train")
      · simp +decide [applySeg, hn]
      · simp [applySeg_train_ne acc s hn, hn]

theorem foldl_applySeg_model_dir (segs : List Seg) (acc : Acc) :
    (segs.foldl applySeg acc).model_dir
      = match lastVal ("model_dir") segs with
        | some v => some v
        | none => acc.model_dir := by
  induction segs generalizing acc with
  | nil => simp [lastVal]
  | cons s segs ih =>
    rw [List.foldl_cons, ih, lastVal_cons]
    cases lastVal ("model_dir") segs with
    | some v => rfl
    | none =>
      by_cases hn : s.name = ("model_dir")
      · simp +decide [applySeg, hn]
      · simp [applySeg_model_dir_ne acc s hn, hn]

theorem applySeg_extras (acc : Acc) (s : Seg) :
    (applySeg acc s).extras = acc.extras ++ extrasOf s := by
  cases hkn : knownStr s.name with
  | false =>
    rw [applySeg_unknown acc s hkn]
    simp [extrasOf, hkn]
  | true =>
    have hof : extrasOf s = [] := by simp [extrasOf, hkn]
    rw [hof, List.append_nil]
    unfold applySeg
    split_ifs <;> first | rfl | simp [knownStr, *] at hkn

theorem foldl_applySeg_extras (segs : List Seg) (acc : Acc) :
    (segs.foldl applySeg acc).extras = acc.extras ++ segs.flatMap extrasOf := by
  induction segs generalizing acc with
  | nil => simp
  | cons s segs ih =>
    rw [List.foldl_cons, ih, applySeg_extras]
    simp

theorem parse_args_render (segs : List Seg) (env : Env)
    (hwf : ∀ s ∈ segs, wfSeg s) (hty : ∀ s ∈ segs, wfTyped s) :
    parse_args (render segs) env
      = .ok (resolve segs env, (segs.flatMap extrasOf).map String.mk) := by
  unfold parse_args
  have h0 := scan_render segs hwf hty [] acc0
  rw [List.append_nil] at h0
  rw [h0]
  show Except.ok (finalize (segs.foldl applySeg acc0) env) = _
  unfold finalize resolve
  rw [foldl_applySeg_max_depth, foldl_applySeg_eta, foldl_applySeg_objective,
    foldl_applySeg_train, foldl_applySeg_model_dir, foldl_applySeg_extras]
  rw [Except.ok.injEq, Prod.mk.injEq]
  refine ⟨?_, ?_⟩
  · rw [Args.mk.injEq]
    refine ⟨?_, ?_, ?_, ?_, ?_⟩
    · cases lastVal ("max_depth") segs <;> rfl
    · cases lastVal ("eta") segs <;> rfl
    · cases lastVal ("objective") segs <;> rfl
    · cases lastVal ("train") segs <;> rfl
    · cases lastVal ("model_dir") segs <;> rfl
  · simp [acc0]

theorem filter_known_cons_pos (s : Seg) (segs : List Seg) (hk : knownStr s.name = true) :
    List.filter (fun x => knownStr x.name) (s :: segs)
      = s :: List.filter (fun x => knownStr x.name) segs := by
  simp [List.filter_cons, hk]

theorem filter_known_cons_neg (s : Seg) (segs : List Seg) (hk : knownStr s.name = false) :
    List.filter (fun x => knownStr x.name) (s :: segs)
      = List.filter (fun x => knownStr x.name) segs := by
  simp [List.filter_cons, hk]

theorem lastVal_filter (n : String) (hn : knownStr n = true) (segs : List Seg) :
    lastVal n (segs.filter fun s => knownStr s.name) = lastVal n segs := by
  induction segs with
  | nil => rfl
  | cons s segs ih =>
    cases hk : knownStr s.name with
    | true => rw [filter_known_cons_pos s segs hk, lastVal_cons, ih, ← lastVal_cons]
    | false =>
      rw [filter_known_cons_neg s segs hk, ih, lastVal_cons]
      have hne : s.name ≠ n := fun he => by rw [he, hn] at hk; cases hk
      cases lastVal n segs with
      | some v => rfl
      | none => simp [hne]

theorem extras_filter (segs : List Seg) :
    (segs.filter fun s => knownStr s.name).flatMap extrasOf = [] := by
  induction segs with
  | nil => rfl
  | cons s segs ih =>
    cases hk : knownStr s.name with
    | true =>
      rw [filter_known_cons_pos s segs hk]
      have hof : extrasOf s = [] := by simp [extrasOf, hk]
      simp [hof, ih]
    | false =>
      rw [filter_known_cons_neg s segs hk]
      exact ih

theorem resolve_filter (segs : List Seg) (env : Env) :
    resolve (segs.filter fun s => knownStr s.name) env = resolve segs env := by
  unfold resolve
  rw [lastVal_filter ("max_depth") (by decide) segs,
    lastVal_filter ("eta") (by decide) segs,
    lastVal_filter ("objective") (by decide) segs,
    lastVal_filter ("train") (by decide) segs,
    lastVal_filter ("model_dir") (by decide) segs]

theorem badTyped_known (s : Seg) (hb : badTyped s) : knownStr s.name = true := by
  rcases hb with ⟨hn, _⟩ | ⟨hn, _⟩ <;> simp [knownStr, hn]

theorem setOpt_bad (acc : Acc) (s : Seg) (hb : badTyped s) :
    ∃ msg, setOpt acc s.name.toList s.value.toList = .error (.usageError msg) := by
  rcases hb with ⟨hn, hp⟩ | ⟨hn, hp⟩
  · have hp' : parseIntChars s.value.data = none := hp
    exact ⟨("argument max_depth: invalid int value"), by simp [setOpt, hn, hp']⟩
  · have hp' : parseFloatChars s.value.data = none := hp
    exact ⟨("argument eta: invalid float value"), by simp +decide [setOpt, hn, hp']⟩

theorem scan_render_err (segs : List Seg) (hwf : ∀ s ∈ segs, wfSeg s)
    (hbad : ∃ s ∈ segs, badTyped s) (ts : List Tok) (acc : Acc) :
    ∃ msg, scan ((render segs).map String.toList ++ ts) acc = .error (.usageError msg) := by
  induction segs generalizing acc with
  | nil =>
    rcases hbad with ⟨s, hs, _⟩
    cases hs
  | cons s segs ih =>
    obtain ⟨hne, heq, hval⟩ := hwf s (List.mem_cons_self s segs)
    have hwf' : ∀ x ∈ segs, wfSeg x := fun x hx => hwf x (List.mem_cons_of_mem s hx)
    rw [render_toks]
    simp only [List.cons_append]
    rw [scan]
    rw [splitFirst_not_mem '=' s.name.toList heq]
    simp only []
    rw [knownName_toList]
    by_cases hb : badTyped s
    · rw [if_pos (badTyped_known s hb)]
      rw [optionLike_nondash s.value.toList hval]
      simp only [Bool.false_eq_true, if_neg, ite_false]
      obtain ⟨msg, hmsg⟩ := setOpt_bad acc s hb
      refine ⟨msg, ?_⟩
      rw [hmsg]
    · have hbad' : ∃ x ∈ segs, badTyped x := by
        rcases hbad with ⟨x, hx, hbx⟩
        rcases List.mem_cons.mp hx with rfl | hx'
        · exact absurd hbx hb
        · exact ⟨x, hx', hbx⟩
      cases hkn : knownStr s.name with
      | true =>
        have ht : wfTyped s := by
          constructor
          · intro hn
            cases hpi : parseInt s.value with
            | none => exact absurd (Or.inl ⟨hn, hpi⟩) hb
            | some i => rfl
          · intro hn
            cases hpf : parseFloat s.value with
            | none => exact absurd (Or.inr ⟨hn, hpf⟩) hb
            | some q => rfl
        simp only [if_pos rfl]
        rw [optionLike_nondash s.value.toList hval]
        simp only [Bool.false_eq_true, if_neg, ite_false]
        rw [setOpt_eq_applySeg acc s hkn ht]
        exact ih hwf' hbad' (applySeg acc s)
      | false =>
        simp only [Bool.false_eq_true, if_neg, ite_false]
        rw [scan_cons_nondash s.value.toList hval]
        exact ih hwf' hbad' _

/-! ### Claim theorems about the argument parser -/

/-- C2: for every well-formed CLI invocation, each flag resolves to the value
given on the command line when present (the last occurrence, through the
declared type coercion), otherwise to the named environment variable
(`SM_CHANNEL_TRAIN` for `--train`, `SM_MODEL_DIR` for `--model_dir`) when
set, otherwise to the stated literal default (5 for `--max_depth`, 0.2 for
`--eta`, `"reg:squarederror"` for `--objective`): parsing the rendered
invocation returns exactly the spec-side `resolve`. -/
theorem cliResolution (segs : List Seg) (env : Env)
    (hwf : ∀ s ∈ segs, wfSeg s) (hty : ∀ s ∈ segs, wfTyped s) :
    (parse_args (render segs) env).map Prod.fst = .ok (resolve segs env) := by
  rw [parse_args_render segs env hwf hty]
  rfl

/-- Witness for C2: `--max_depth 7 --train /data/ch` with both environment
variables set resolves to the CLI values for those two flags, the environment
value for `--model_dir`, and the literal defaults for the rest. -/
theorem cliResolution_witness :
    (parse_args (render [⟨("max_depth"), ("7")⟩, ⟨("train"), ("/data/ch")⟩])
        ⟨some ("/env/ch"), some ("/m")⟩).map Prod.fst
      = .ok ⟨7, (0.2 : Rat), ("reg:squarederror"), some ("/data/ch"), some ("/m")⟩ := by
  rw [cliResolution [⟨("max_depth"), ("7")⟩, ⟨("train"), ("/data/ch")⟩]
    ⟨some ("/env/ch"), some ("/m")⟩ (by decide) (by decide)]
  rfl

/-- C8 (counterexample): the invocation `--train --u v` contains the unknown
flag `--u`, but argparse does not discard it: sitting in the value position
of `--train`, it makes parsing fail with a usage error, unlike the same
invocation without it. -/
theorem unknownFlagErrorsInValuePosition :
    parse_args [("--train"), ("--u"), ("v")] ⟨none, none⟩
      = .error (.usageError ("train: expected one argument")) ∧
    parse_args [("--train"), ("v")] ⟨none, none⟩
      = .ok (⟨5, (0.2 : Rat), ("reg:squarederror"), some ("v"), none⟩, []) :=
  ⟨rfl, rfl⟩

/-- C8 (amended): unknown flags that occupy their own flag/value position
(not the value position of a known flag) are accepted and discarded into the
extras list of `parse_known_args`, and the known flags resolve exactly as
they would with the unknown pairs removed. -/
theorem unknownFlagsDiscarded (segs : List Seg) (env : Env)
    (hwf : ∀ s ∈ segs, wfSeg s) (hty : ∀ s ∈ segs, wfTyped s) :
    parse_args (render segs) env
        = .ok (resolve segs env, (segs.flatMap extrasOf).map String.mk) ∧
    parse_args (render (segs.filter fun s => knownStr s.name)) env
        = .ok (resolve segs env, []) := by
  refine ⟨parse_args_render segs env hwf hty, ?_⟩
  have hwf' : ∀ x ∈ segs.filter (fun s => knownStr s.name), wfSeg x :=
    fun x hx => hwf x (List.mem_of_mem_filter hx)
  have hty' : ∀ x ∈ segs.filter (fun s => knownStr s.name), wfTyped x :=
    fun x hx => hty x (List.mem_of_mem_filter hx)
  rw [parse_args_render _ env hwf' hty', extras_filter, resolve_filter]
  rfl

/-- Witness for the amended C8: the unknown pair `--u x` before
`--train /d` is discarded into extras and leaves every known flag's
resolution unchanged. -/
theorem unknownFlagsDiscarded_witness :
    parse_args (render [⟨("u"), ("x")⟩, ⟨("train"), ("/d")⟩]) ⟨none, none⟩
        = .ok (resolve [⟨("u"), ("x")⟩, ⟨("train"), ("/d")⟩] ⟨none, none⟩,
            ([⟨("u"), ("x")⟩, ⟨("train"), ("/d")⟩].flatMap extrasOf).map String.mk) ∧
    parse_args (render ([⟨("u"), ("x")⟩, ⟨("train"), ("/d")⟩].filter
          fun s => knownStr s.name)) ⟨none, none⟩
        = .ok (resolve [⟨("u"), ("x")⟩, ⟨("train"), ("/d")⟩] ⟨none, none⟩, []) :=
  unknownFlagsDiscarded [⟨("u"), ("x")⟩, ⟨("train"), ("/d")⟩] ⟨none, none⟩
    (by decide) (by decide)

/-- C9: an invocation whose `--max_depth` value does not parse as an integer,
or whose `--eta` value does not parse as a float, makes the process fail with
a usage error during argument parsing, before any other step runs: `main`
returns the usage error with the filesystem untouched, and `train` is never
entered. -/
theorem badTypeUsageError (segs : List Seg) (env : Env) (fs : FS)
    (hwf : ∀ s ∈ segs, wfSeg s) (hbad : ∃ s ∈ segs, badTyped s) :
    ∃ msg, main (render segs) env fs = (some (.usageError msg), fs) := by
  obtain ⟨msg, hmsg⟩ := scan_render_err segs hwf hbad [] acc0
  rw [List.append_nil] at hmsg
  refine ⟨msg, ?_⟩
  unfold main parse_args
  rw [hmsg]
  rfl

/-- Witness for C9: `--max_depth abc` fails with a usage error and leaves the
filesystem unchanged. -/
theorem badTypeUsageError_witness :
    ∃ msg, main (render [⟨("max_depth"), ("abc")⟩]) ⟨none, none⟩ emptyFS
      = (some (.usageError msg), emptyFS) :=
  badTypeUsageError [⟨("max_depth"), ("abc")⟩] ⟨none, none⟩ emptyFS (by decide)
    ⟨⟨("max_depth"), ("abc")⟩, by decide, by decide⟩

/-- C10: with no flags given and both `SM_CHANNEL_TRAIN` and `SM_MODEL_DIR`
unset, the resolved `--train` and `--model_dir` are `None` (not a path string
and not a literal default), and line 65's f-string then denotes the literal
path `None/train.csv`. -/
theorem unsetEnvDefaultsNone :
    parse_args [] ⟨none, none⟩
      = .ok (⟨5, (0.2 : Rat), ("reg:squarederror"), none, none⟩, []) ∧
    trainCsvPath none = ("None/train.csv") :=
  ⟨rfl, rfl⟩

end XgbScript
